import Mathlib

/-!
Verification of the Peer Session Orchestrator of the Video_Conference
repository (frontend `src/lib/webrtc.ts`, class `WebRTCManager`).

The development is a shallow embedding: the TypeScript code of
`webrtc.ts` is translated into executable Lean definitions.  The
underlying `RTCPeerConnection` object is an external collaborator; it is
modelled by `RTCConn` following the W3C signaling-state machine for the
operations the orchestrator invokes (set-local/remote description,
create answer, add ICE candidate).  Side effects of the handlers
(signaling sends, emitted events, console logging) are collected in an
explicit effect list.
-/

namespace VC

/-- `RTCPeerConnection.signalingState`. -/
inductive SigState
  | stable
  | haveLocalOffer
  | haveRemoteOffer
  | closed
deriving DecidableEq

/-- `RTCPeerConnection.connectionState`. -/
inductive ConnState
  | fresh
  | connecting
  | connected
  | disconnected
  | failed
  | closedC
deriving DecidableEq

/-- Type tag of a session description. -/
inductive SdpType
  | offer
  | answer
  | rollback
deriving DecidableEq

/-- A session description (`RTCSessionDescription`); `sdp` is an abstract
payload identifier. -/
structure Desc where
  typ : SdpType
  sdp : Nat
deriving DecidableEq

/-- Media kind of a track (`MediaStreamTrack.kind`). -/
inductive MKind
  | audio
  | video
deriving DecidableEq

/-- A local media track; `stopped` models `track.stop()` having been called. -/
structure Track where
  kind : MKind
  tid : Nat
  stopped : Bool := false
deriving DecidableEq

/-- An `RTCRtpSender` holding an outbound track. -/
structure Sender where
  kind : MKind
  trackId : Nat
deriving DecidableEq

/-- An ICE candidate; `ok` models whether the capability accepts it
(`addIceCandidate` succeeds) or rejects it with an error. -/
structure IceCand where
  cid : Nat
  ok : Bool
deriving DecidableEq

/-- Model of the external `RTCPeerConnection` capability.  The ledgers
`attempted`/`applied` record, in order, the candidate ids handed to
`addIceCandidate` and those it accepted. -/
structure RTCConn where
  signalingState : SigState := .stable
  connectionState : ConnState := .fresh
  localDesc : Option Desc := none
  remoteDesc : Option Desc := none
  senders : List Sender := []
  attempted : List Nat := []
  applied : List Nat := []
deriving DecidableEq

/-- W3C behaviour of `setRemoteDescription` for the description types the
orchestrator sends. -/
def RTCConn.setRemoteDescription (c : RTCConn) (d : Desc) : Except String RTCConn :=
  match d.typ, c.signalingState with
  | .offer, .stable => .ok { c with signalingState := .haveRemoteOffer, remoteDesc := some d }
  | .offer, .haveRemoteOffer => .ok { c with remoteDesc := some d }
  | .answer, .haveLocalOffer => .ok { c with signalingState := .stable, remoteDesc := some d }
  | _, _ => .error "InvalidStateError: setRemoteDescription"

/-- W3C behaviour of `setLocalDescription`, including rollback. -/
def RTCConn.setLocalDescription (c : RTCConn) (d : Desc) : Except String RTCConn :=
  match d.typ, c.signalingState with
  | .offer, .stable => .ok { c with signalingState := .haveLocalOffer, localDesc := some d }
  | .offer, .haveLocalOffer => .ok { c with localDesc := some d }
  | .answer, .haveRemoteOffer => .ok { c with signalingState := .stable, localDesc := some d }
  | .rollback, .haveLocalOffer => .ok { c with signalingState := .stable, localDesc := none }
  | .rollback, .haveRemoteOffer => .ok { c with signalingState := .stable, remoteDesc := none }
  | _, _ => .error "InvalidStateError: setLocalDescription"

/-- `createAnswer`: legal only while an offer is the current remote
description; the produced answer references the offer it answers. -/
def RTCConn.createAnswer (c : RTCConn) : Except String Desc :=
  match c.signalingState, c.remoteDesc with
  | .haveRemoteOffer, some r => .ok ⟨.answer, r.sdp⟩
  | _, _ => .error "InvalidStateError: createAnswer"

/-- `addIceCandidate`: the call is always recorded in `attempted`; it is
recorded in `applied` exactly when the capability accepts it.  The boolean
result reports acceptance. -/
def RTCConn.addIceCandidate (c : RTCConn) (cand : IceCand) : RTCConn × Bool :=
  if cand.ok then
    ({ c with attempted := c.attempted ++ [cand.cid], applied := c.applied ++ [cand.cid] }, true)
  else
    ({ c with attempted := c.attempted ++ [cand.cid] }, false)

/-- `RTCPeerConnection.close()`. -/
def RTCConn.close (c : RTCConn) : RTCConn :=
  { c with signalingState := .closed, connectionState := .closedC }

/-- The `PeerConnection` record stored in `WebRTCManager.peers`
(interface `PeerConnection` of `webrtc.ts`).  The optional
`pendingCandidates` array is modelled as a list, with the `undefined`
field equal to the empty list (the code treats them identically through
`?.length` and `??=`); a `none` entry is the null end-of-candidates
sentinel. -/
structure PeerConnection where
  peerId : String
  connection : RTCConn
  stream : Option (List Nat) := none
  dataChannel : Option Nat := none
  pendingCandidates : List (Option IceCand) := []
deriving DecidableEq

/-- Events fanned out by the manager (`WebRTCEvent`). -/
inductive WEvent
  | streamEv (peerId : String)
  | chatEv (payload : Nat)
  | peerRemoved (peerId : String)
deriving DecidableEq

/-- Observable side effects of the orchestrator: console logging, the
three outbound signaling sends, and event emission to listeners. -/
inductive Effect
  | log (s : String)
  | sendOffer (dest : String) (d : Desc)
  | sendAnswer (dest : String) (d : Desc)
  | sendCandidate (dest : String) (c : IceCand)
  | emitEv (e : WEvent)
deriving DecidableEq

/-- Is the effect an outbound signaling send? -/
def Effect.isSend : Effect → Bool
  | .sendOffer _ _ => true
  | .sendAnswer _ _ => true
  | .sendCandidate _ _ => true
  | _ => false

/-- Is the effect an emitted event? -/
def Effect.isEmit : Effect → Bool
  | .emitEv _ => true
  | _ => false

/-- State of a `WebRTCManager` instance.  `socketId` models
`socketService.getSocketId()` (`none` when the socket is not connected);
`nextSdp` supplies fresh abstract payloads for `createOffer`.  Event
listeners are kept as opaque ids here; the dispatch semantics of the
event bus itself is modelled separately below. -/
structure Manager where
  userId : String
  roomId : String
  peers : List (String × PeerConnection) := []
  localStream : Option (List Track) := none
  screenStream : Option (List Track) := none
  eventListeners : List Nat := []
  socketId : Option String := some "sock"
  nextSdp : Nat := 0
deriving DecidableEq

/-- Lookup in the peers map (`this.peers.get`). -/
def plookup : List (String × PeerConnection) → String → Option PeerConnection
  | [], _ => none
  | (k, v) :: rest, pid => if k = pid then some v else plookup rest pid

/-- Insert or replace in the peers map (`this.peers.set`): JavaScript
`Map.set` replaces in place, preserving insertion order. -/
def pupsert : List (String × PeerConnection) → String → PeerConnection →
    List (String × PeerConnection)
  | [], pid, p => [(pid, p)]
  | (k, v) :: rest, pid, p =>
    if k = pid then (k, p) :: rest else (k, v) :: pupsert rest pid p

/-- Remove from the peers map (`this.peers.delete`). -/
def perase : List (String × PeerConnection) → String → List (String × PeerConnection)
  | [], _ => []
  | (k, v) :: rest, pid => if k = pid then rest else (k, v) :: perase rest pid

/-- `WebRTCManager.removePeer`: closes the connection and data channel,
deletes the map entry and emits a `peerRemoved` event; a no-op (beyond a
log line) for an absent peer. -/
def removePeer (m : Manager) (peerId : String) : Manager × List Effect :=
  match plookup m.peers peerId with
  | none => (m, [.log "removing peer"])
  | some _ =>
    ({ m with peers := perase m.peers peerId },
     [.log "removing peer", .emitEv (.peerRemoved peerId)])

/-- `WebRTCManager.flushPendingIce`: early return when the buffer is
empty or absent; otherwise each buffered candidate is applied in FIFO
order — a `null` entry is skipped, a per-candidate failure is logged and
the loop continues — and the buffer is cleared.  `flushStep` is the loop
body. -/
def flushStep (acc : RTCConn × List Effect) (c : Option IceCand) : RTCConn × List Effect :=
  match c with
  | none => acc
  | some cand =>
    let r := acc.1.addIceCandidate cand
    (r.1, acc.2 ++ if r.2 then [] else [.log "error adding pending ICE candidate"])

def flushPendingIce (peer : PeerConnection) : PeerConnection × List Effect :=
  if peer.pendingCandidates.length = 0 then (peer, [])
  else
    let r := peer.pendingCandidates.foldl flushStep (peer.connection, [.log "flushing pending ICE"])
    ({ peer with connection := r.1, pendingCandidates := [] }, r.2)

/-- The add-local-tracks loop of `createPeer`: a track is added only when
no sender of the same kind exists yet (`getSenders().find` by kind);
`addTrack` appends a new sender. -/
def addTrackIfAbsent (ss : List Sender) (t : Track) : List Sender :=
  if ss.any fun s => s.kind = t.kind then ss else ss ++ [⟨t.kind, t.tid⟩]

/-- The fresh-connection tail of `WebRTCManager.createPeer`: builds the
`RTCPeerConnection`, adds local tracks de-duplicated by kind, creates the
data channel when initiating, stores the peer in the map, and — when
initiating — creates and sets a local offer and sends it (when a socket
id is available). -/
def createFresh (m : Manager) (peerId : String) (isInitiator : Bool) :
    Manager × PeerConnection × List Effect :=
  let senders :=
    match m.localStream with
    | some tracks => tracks.foldl addTrackIfAbsent []
    | none => []
  let conn : RTCConn := { senders := senders }
  let peer : PeerConnection :=
    { peerId := peerId, connection := conn, stream := none,
      dataChannel := if isInitiator then some 0 else none, pendingCandidates := [] }
  let m1 := { m with peers := pupsert m.peers peerId peer }
  if isInitiator then
    -- fresh connection is `stable`, so createOffer/setLocalDescription succeed
    let offer : Desc := ⟨.offer, m.nextSdp⟩
    match conn.setLocalDescription offer with
    | .ok conn2 =>
      let peer2 := { peer with connection := conn2 }
      let m2 := { m1 with peers := pupsert m1.peers peerId peer2, nextSdp := m.nextSdp + 1 }
      match m.socketId with
      | some _ => (m2, peer2, [.sendOffer peerId offer])
      | none => (m2, peer2, [])
    | .error e =>
      -- unreachable on a fresh connection; mirrors the catch-and-remove path
      let r := removePeer m1 peerId
      (r.1, peer, r.2 ++ [.log e])
  else
    (m1, peer, [])

/-- `WebRTCManager.createPeer`: reuses an existing `stable`+`connected`
session; tears down and recreates a session whose signaling state is
`closed` or whose connection state is `failed` or `disconnected`; returns
any other existing session unchanged; otherwise builds a fresh session. -/
def createPeer (m : Manager) (peerId : String) (isInitiator : Bool) :
    Manager × PeerConnection × List Effect :=
  match plookup m.peers peerId with
  | some existing =>
    let st := existing.connection.signalingState
    let cs := existing.connection.connectionState
    if st = .stable ∧ cs = .connected then
      (m, existing, [.log "reusing existing stable connection"])
    else if st = .closed ∨ cs = .failed ∨ cs = .disconnected then
      let r := removePeer m peerId
      let r2 := createFresh r.1 peerId isInitiator
      (r2.1, r2.2.1, r.2 ++ [.log "removing stale connection"] ++ r2.2.2)
    else
      (m, existing, [.log "peer exists but not ready"])
  | none => createFresh m peerId isInitiator

/-- The `onWebRTCOffer` signaling handler: creates a responder session if
the peer is absent, unconditionally rolls back a colliding local offer,
sets the remote description, flushes buffered candidates, creates/sets an
answer and sends it; any error removes the peer session. -/
def handleOffer (m : Manager) (src : String) (offer : Desc) : Manager × List Effect :=
  let r0 :=
    match plookup m.peers src with
    | some _ => (m, ([] : List Effect))
    | none =>
      let r := createPeer m src false
      (r.1, r.2.2)
  let m1 := r0.1
  match plookup m1.peers src with
  | none => (m1, r0.2)
  | some peer =>
    let conn := peer.connection
    -- offer-collision check: roll back a pending local offer
    let rb : Except String RTCConn :=
      if conn.signalingState ≠ .stable ∧ conn.signalingState = .haveLocalOffer then
        conn.setLocalDescription ⟨.rollback, 0⟩
      else
        .ok conn
    match rb with
    | .error e =>
      -- rollback failure: logged and the handler returns early
      (m1, r0.2 ++ [.log e, .log "error rolling back"])
    | .ok conn1 =>
      match conn1.setRemoteDescription offer with
      | .error e =>
        -- caught by the outer try: the peer session is removed
        let r := removePeer m1 src
        (r.1, r0.2 ++ [.log e, .log "error handling offer"] ++ r.2)
      | .ok conn2 =>
        let fr := flushPendingIce { peer with connection := conn2 }
        let peer2 := fr.1
        match peer2.connection.createAnswer with
        | .error e =>
          let r := removePeer ({ m1 with peers := pupsert m1.peers src peer2 }) src
          (r.1, r0.2 ++ fr.2 ++ [.log e, .log "error handling offer"] ++ r.2)
        | .ok ans =>
          match peer2.connection.setLocalDescription ans with
          | .error e =>
            let r := removePeer ({ m1 with peers := pupsert m1.peers src peer2 }) src
            (r.1, r0.2 ++ fr.2 ++ [.log e, .log "error handling offer"] ++ r.2)
          | .ok conn3 =>
            let peer3 := { peer2 with connection := conn3 }
            let m2 := { m1 with peers := pupsert m1.peers src peer3 }
            match m2.socketId with
            | some _ => (m2, r0.2 ++ fr.2 ++ [.sendAnswer src ans])
            | none => (m2, r0.2 ++ fr.2 ++ [.log "Socket ID not found"])

/-- The `onWebRTCAnswer` signaling handler: for an existing peer it
unconditionally attempts `setRemoteDescription(answer)` and flushes the
candidate buffer on success; a capability rejection is caught and logged,
leaving the peer unchanged. -/
def handleAnswer (m : Manager) (src : String) (answer : Desc) : Manager × List Effect :=
  match plookup m.peers src with
  | none => (m, [.log "received answer"])
  | some peer =>
    match peer.connection.setRemoteDescription answer with
    | .error e => (m, [.log "received answer", .log e, .log "error handling answer"])
    | .ok conn1 =>
      let fr := flushPendingIce { peer with connection := conn1 }
      ({ m with peers := pupsert m.peers src fr.1 },
       [.log "received answer"] ++ fr.2 ++ [.log "answer processed"])

/-- The `onWebRTCIceCandidate` signaling handler: absent peer → return;
no remote description yet → buffer the candidate (`null` included);
otherwise apply it directly, logging a capability rejection.  A `null`
candidate on the direct path makes the `RTCIceCandidate` constructor
throw, which the surrounding `try` catches and logs. -/
def handleCandidate (m : Manager) (src : String) (cand : Option IceCand) :
    Manager × List Effect :=
  match plookup m.peers src with
  | none => (m, [.log "received candidate"])
  | some peer =>
    if peer.connection.remoteDesc = none then
      ({ m with peers :=
          pupsert m.peers src { peer with pendingCandidates := peer.pendingCandidates ++ [cand] } },
       [.log "received candidate", .log "stored pending ICE candidate"])
    else
      match cand with
      | none => (m, [.log "received candidate", .log "error adding ICE candidate"])
      | some c =>
        let r := peer.connection.addIceCandidate c
        ({ m with peers := pupsert m.peers src { peer with connection := r.1 } },
         [.log "received candidate"] ++
           if r.2 then [] else [.log "error adding ICE candidate"])

/-- The per-track step of `setLocalStream`: `getSenders().find` locates
the first sender of the same kind and `replaceTrack` swaps its track in
place; with no such sender, `addTrack` appends a new one. -/
def applyTrack : List Sender → Track → List Sender
  | [], t => [⟨t.kind, t.tid⟩]
  | s :: ss, t =>
    if s.kind = t.kind then ⟨s.kind, t.tid⟩ :: ss else s :: applyTrack ss t

/-- `WebRTCManager.setLocalStream`: stores the stream and sweeps every
existing peer, replacing or adding outbound senders per track kind. -/
def setLocalStream (m : Manager) (tracks : List Track) : Manager :=
  { m with
    localStream := some tracks,
    peers := m.peers.map fun kv =>
      (kv.1, { kv.2 with connection :=
        { kv.2.connection with senders := tracks.foldl applyTrack kv.2.connection.senders } }) }

/-- Stop every track of an optional stream (`track.stop()`), keeping the
stream reference itself. -/
def stopTracks : Option (List Track) → Option (List Track)
  | none => none
  | some ts => some (ts.map fun t => { t with stopped := true })

/-- `WebRTCManager.cleanup`: closes all peer connections and data
channels (errors ignored), stops the tracks of the local and screen
streams, clears the peers map and drops all event listeners.  No events
are emitted and the stream references themselves are not reset. -/
def cleanup (m : Manager) : Manager × List Effect :=
  ({ m with
      peers := [],
      localStream := stopTracks m.localStream,
      screenStream := stopTracks m.screenStream,
      eventListeners := [] },
   [.log "cleaning up"])

/-- JavaScript falsiness of an optional string argument: absent or
empty. -/
def falsy : Option String → Bool
  | none => true
  | some s => s = ""

/-- `WebRTCManager.getInstance`: with no live instance it throws unless
both identifiers are supplied (truthy), then constructs the singleton;
with a live instance it returns it unchanged, ignoring any arguments. -/
def getInstance (inst : Option Manager) (userId? roomId? : Option String) :
    Except String (Manager × Option Manager) :=
  match inst with
  | none =>
    if falsy userId? ∨ falsy roomId? then
      .error "UserId and RoomId required for first initialization"
    else
      let mgr : Manager := { userId := userId?.getD "", roomId := roomId?.getD "" }
      .ok (mgr, some mgr)
  | some mgr => .ok (mgr, some mgr)

/-- `WebRTCManager.reset`: cleans up the live instance (if any) and
clears the singleton slot. -/
def resetInstance (inst : Option Manager) : Option Manager × List Effect :=
  match inst with
  | none => (none, [])
  | some mgr => (none, (cleanup mgr).2)

/-!
## Event bus dispatch

`emitEvent` runs `this.eventListeners.forEach(cb => cb(event))` over the
live array while callbacks may call `onEvent` (push) or `offEvent`
(`indexOf` + `splice`).  ECMAScript `forEach` fixes the index range
`0 .. len-1` from the length at the start of iteration, reads the element
at each index from the *current* array, and skips indices past the
current length.  A listener is modelled by an id plus the re-entrant
bus operation its callback performs. -/

/-- Re-entrant bus operation performed by a listener's callback. -/
inductive LAction
  | noop
  | addL (newId : Nat)
  | removeL (targetId : Nat)
deriving DecidableEq

/-- A registered listener: its identity and its callback's effect on the
listener list. -/
structure Listener where
  lid : Nat
  act : LAction
deriving DecidableEq

/-- Apply a callback's bus operation to the live listener list:
`onEvent` pushes; `offEvent` finds the first index of the target and
splices it out (no-op when absent). -/
def applyAction (ls : List Listener) : LAction → List Listener
  | .noop => ls
  | .addL n => ls ++ [⟨n, .noop⟩]
  | .removeL t =>
    match ls.findIdx? fun l => l.lid = t with
    | some i => ls.eraseIdx i
    | none => ls

/-- One `forEach` pass: `fuel` counts the remaining indices of the range
`0 .. len0-1` fixed at emission time; an index at or past the *current*
length is skipped.  Returns the final listener list and the ids invoked,
in invocation order. -/
def emitFrom : Nat → Nat → List Listener → List Nat → List Listener × List Nat
  | 0, _, ls, inv => (ls, inv)
  | n + 1, k, ls, inv =>
    if h : k < ls.length then
      let l := ls.get ⟨k, h⟩
      emitFrom n (k + 1) (applyAction ls l.act) (inv ++ [l.lid])
    else
      emitFrom n (k + 1) ls inv

/-- `WebRTCManager.emitEvent`: dispatch one event over the live listener
list. -/
def emitEvent (ls : List Listener) : List Listener × List Nat :=
  emitFrom ls.length 0 ls []

/-!
## Reconnection supervision

`onconnectionstatechange` schedules a 2000 ms `setTimeout` on every
transition into `failed` or `disconnected`; when a timer fires it
re-checks the connection state and calls `restartIce`, which restarts
only if the peer is still in the map and its signaling state is
`stable`.  A transition into `closed` removes the peer.  The supervisor
is modelled per peer as a timed transition system: `timers` holds the
absolute deadlines of the outstanding timeouts, `restarts` the times at
which `connection.restartIce()` was actually invoked. -/

/-- Fixed restart delay of the `setTimeout` in `onconnectionstatechange`
(milliseconds). -/
def restartDelay : Nat := 2000

/-- Supervisor state for one peer. -/
structure SupState where
  connState : ConnState := .fresh
  sig : SigState := .stable
  present : Bool := true
  timers : List Nat := []
  restarts : List Nat := []
  now : Nat := 0
deriving DecidableEq

/-- Supervisor events: a connection-state change at time `t`, or the
timeout with deadline `t` firing. -/
inductive SupEvent
  | connChange (t : Nat) (s : ConnState)
  | timerFire (t : Nat)
deriving DecidableEq

/-- One supervisor step, mirroring `onconnectionstatechange` and the body
of its `setTimeout` callback together with `restartIce`. -/
def supStep (s : SupState) (e : SupEvent) : SupState :=
  match e with
  | .connChange t cs =>
    let s1 := { s with now := t, connState := cs }
    if cs = .failed ∨ cs = .disconnected then
      { s1 with timers := s1.timers ++ [t + restartDelay] }
    else if cs = .closedC then
      { s1 with present := false }
    else s1
  | .timerFire t =>
    if s.timers.contains t then
      let s1 := { s with now := t, timers := s.timers.erase t }
      if s.connState = .disconnected ∨ s.connState = .failed then
        if s.present ∧ s.sig = .stable then
          { s1 with restarts := s1.restarts ++ [t] }
        else s1
      else s1
    else s

/-- Run the supervisor over an event trace. -/
def supRun (s : SupState) (es : List SupEvent) : SupState :=
  es.foldl supStep s

/-!
## Derived notions and concrete states used in the statements
-/

/-- Deliver a sequence of inbound ICE candidates from `src`, in order. -/
def deliverCandidates (m : Manager) (src : String) (cs : List (Option IceCand)) : Manager :=
  cs.foldl (fun acc c => (handleCandidate acc src c).1) m

/-- Number of outbound senders of a given media kind. -/
def countKind (ss : List Sender) (k : MKind) : Nat :=
  (ss.filter fun s => s.kind = k).length

/-- A session the spec calls healthy: `Stable` negotiation and
`Connected` connectivity. -/
def healthyPeer (p : PeerConnection) : Prop :=
  p.connection.signalingState = .stable ∧ p.connection.connectionState = .connected

/-- The staleness test actually performed by `createPeer`. -/
def stalePeer (p : PeerConnection) : Prop :=
  p.connection.signalingState = .closed ∨
  p.connection.connectionState = .failed ∨
  p.connection.connectionState = .disconnected

/-- An effect that is neither an outbound signaling send nor an emitted
event (i.e. at most console logging). -/
def Effect.benign (e : Effect) : Prop :=
  e.isSend = false ∧ e.isEmit = false

/-- Does the listener's callback perform an `offEvent` call? -/
def LAction.isRemove : LAction → Bool
  | .removeL _ => true
  | _ => false

/-- Uniqueness of the peer-map keys: the formal reading of "at most one
PeerSession per peerId". -/
def keysNodup (l : List (String × PeerConnection)) : Prop :=
  (l.map Prod.fst).Nodup

/-- A freshly constructed manager, as produced by the private constructor
with identifiers "u" and "r". -/
def initMgr : Manager := { userId := "u", roomId := "r" }

/-- Manager holding one peer created as initiator for "B" (its local
offer is outstanding). -/
def mgrInit : Manager := (createPeer initMgr "B" true).1

/-- Manager holding one peer created as responder for "B" (fresh
`stable` session, no remote description). -/
def mgrResp : Manager := (createPeer initMgr "B" false).1

/-- A session in `stable` signaling whose connectivity dropped to
`disconnected`. -/
def discPeer : PeerConnection :=
  { peerId := "B",
    connection := { signalingState := .stable, connectionState := .disconnected } }

/-- Manager holding the disconnected-but-stable session. -/
def mgrDisc : Manager := { userId := "u", roomId := "r", peers := [("B", discPeer)] }

/-- Manager obtained by creating a responder session for "X" and then
removing it. -/
def mgrRemoved : Manager := (removePeer (createPeer initMgr "X" false).1 "X").1

/-- Manager holding a local video stream. -/
def mgrMedia : Manager :=
  { userId := "u", roomId := "r", localStream := some [⟨.video, 1, false⟩] }

/-- Manager holding one peer that already has an outbound video sender. -/
def mgrSenders : Manager :=
  { userId := "u", roomId := "r",
    peers := [("B", { peerId := "B", connection := { senders := [⟨.video, 1⟩] } })] }

/-- Supervisor initial state: a connected peer with stable negotiation. -/
def supInit : SupState := { connState := .connected }

/-- Trace with two disconnections 900 ms apart. -/
def doubleDropTrace : List SupEvent :=
  [.connChange 0 .disconnected, .connChange 500 .connected, .connChange 900 .disconnected]

/-!
## Infrastructure lemmas
-/

lemma plookup_pupsert_self (l : List (String × PeerConnection)) (k : String)
    (v : PeerConnection) : plookup (pupsert l k v) k = some v := by
  induction l with
  | nil => simp [pupsert, plookup]
  | cons h t ih =>
    obtain ⟨a, b⟩ := h
    by_cases hk : a = k
    · simp [pupsert, plookup, hk]
    · simp [pupsert, plookup, hk, ih]

lemma plookup_pupsert_ne (l : List (String × PeerConnection)) (k k' : String)
    (v : PeerConnection) (h : k' ≠ k) :
    plookup (pupsert l k v) k' = plookup l k' := by
  induction l with
  | nil => simp [pupsert, plookup, Ne.symm h]
  | cons hd t ih =>
    obtain ⟨a, b⟩ := hd
    by_cases hk : a = k
    · subst hk
      have hne : ¬ a = k' := fun hh => h hh.symm
      simp [pupsert, plookup, hne]
    · simp only [pupsert, if_neg hk]
      by_cases hk' : a = k'
      · simp [plookup, hk']
      · simp [plookup, hk', ih]

lemma mem_keys_pupsert (l : List (String × PeerConnection)) (k x : String)
    (v : PeerConnection) (h : x ∈ (pupsert l k v).map Prod.fst) :
    x ∈ l.map Prod.fst ∨ x = k := by
  induction l with
  | nil => simpa [pupsert] using h
  | cons hd t ih =>
    obtain ⟨a, b⟩ := hd
    by_cases hk : a = k
    · simp only [pupsert, if_pos hk, List.map_cons, List.mem_cons] at h ⊢
      tauto
    · simp only [pupsert, if_neg hk, List.map_cons, List.mem_cons] at h ⊢
      rcases h with h | h
      · tauto
      · rcases ih h with h' | h' <;> tauto

lemma keysNodup_pupsert (l : List (String × PeerConnection)) (k : String)
    (v : PeerConnection) (h : keysNodup l) : keysNodup (pupsert l k v) := by
  induction l with
  | nil => simp [pupsert, keysNodup]
  | cons hd t ih =>
    obtain ⟨a, b⟩ := hd
    simp only [keysNodup, List.map_cons, List.nodup_cons] at h
    by_cases hk : a = k
    · simpa [pupsert, hk, keysNodup] using h
    · have ht := ih h.2
      simp only [pupsert, if_neg hk, keysNodup, List.map_cons, List.nodup_cons]
      refine ⟨fun hmem => ?_, ht⟩
      rcases mem_keys_pupsert t k a v hmem with h' | h'
      · exact h.1 h'
      · exact hk h'

lemma keys_perase_sublist (l : List (String × PeerConnection)) (k : String) :
    ((perase l k).map Prod.fst).Sublist (l.map Prod.fst) := by
  induction l with
  | nil => simp [perase]
  | cons hd t ih =>
    obtain ⟨a, b⟩ := hd
    by_cases hk : a = k
    · simp only [perase, if_pos hk]
      exact (List.Sublist.refl _).cons a
    · simp only [perase, if_neg hk, List.map_cons]
      exact ih.cons₂ a

lemma keysNodup_perase (l : List (String × PeerConnection)) (k : String)
    (h : keysNodup l) : keysNodup (perase l k) :=
  h.sublist (keys_perase_sublist l k)

lemma flush_foldl_conn (cs : List (Option IceCand)) (conn : RTCConn) (effs : List Effect) :
    (cs.foldl flushStep (conn, effs)).1 =
      { conn with
        attempted := conn.attempted ++ (cs.filterMap id).map (fun c => c.cid),
        applied := conn.applied ++ ((cs.filterMap id).filter (fun c => c.ok)).map
          (fun c => c.cid) } := by
  induction cs generalizing conn effs with
  | nil => simp
  | cons c t ih =>
    cases c with
    | none => simp [flushStep, ih]
    | some cand =>
      by_cases hok : cand.ok
      · simp [flushStep, RTCConn.addIceCandidate, hok, ih]
      · simp [flushStep, RTCConn.addIceCandidate, hok, ih]

lemma flushPendingIce_fst (peer : PeerConnection) :
    (flushPendingIce peer).1 =
      { peer with
        connection := { peer.connection with
          attempted := peer.connection.attempted ++
            ((peer.pendingCandidates.filterMap id).map fun c => c.cid),
          applied := peer.connection.applied ++
            (((peer.pendingCandidates.filterMap id).filter fun c => c.ok).map
              fun c => c.cid) },
        pendingCandidates := [] } := by
  obtain ⟨pid, conn, st, dc, pc⟩ := peer
  by_cases h : pc.length = 0
  · have hnil : pc = [] := List.length_eq_zero.mp h
    subst hnil
    simp [flushPendingIce]
  · simp [flushPendingIce, h, flush_foldl_conn]

/-!
## Counterexamples to the claims the source refutes
-/

/-- C1, counterexample.  In `mgrInit`, peer "B" was created with the
Initiator role and its negotiation state is `HaveLocalOffer` with its
local offer outstanding.  The claim says an Initiator ignores an
incoming offer and keeps its local offer; the handler instead rolls the
local offer back, accepts the incoming offer and sends an answer. -/
theorem C1_counterexample :
    ((plookup mgrInit.peers "B").map fun p => p.connection.signalingState) =
        some .haveLocalOffer ∧
    ¬ ((((plookup (handleOffer mgrInit "B" ⟨.offer, 100⟩).1.peers "B").map
            fun p => p.connection.signalingState) = some .haveLocalOffer) ∧
       (((plookup (handleOffer mgrInit "B" ⟨.offer, 100⟩).1.peers "B").map
            fun p => p.connection.localDesc) = some (some ⟨.offer, 0⟩)) ∧
       (∀ e ∈ (handleOffer mgrInit "B" ⟨.offer, 100⟩).2, e.isSend = false)) := by
  decide

/-- C2, counterexample.  In `mgrResp`, peer "B" has no remote description
at all (fresh responder session in `stable`); the claim says an inbound
answer is then applied defensively, but the capability rejects it and
the remote description stays unset. -/
theorem C2_counterexample :
    ((plookup mgrResp.peers "B").map fun p => p.connection.remoteDesc) = some none ∧
    ¬ (((plookup (handleAnswer mgrResp "B" ⟨.answer, 5⟩).1.peers "B").map
          fun p => p.connection.remoteDesc) = some (some ⟨.answer, 5⟩)) := by
  decide

/-- C4, counterexample.  `discPeer` is in `stable` signaling with
`disconnected` connectivity — neither healthy nor stale in the claim's
sense (`Closed` connectivity or failed negotiation) — so the claim says
`createPeer` returns it unchanged; the code instead tears it down
(emitting `peerRemoved`) and replaces it with a fresh session. -/
theorem C4_counterexample :
    ¬ ((createPeer mgrDisc "B" false).2.1 = discPeer ∧
       ∀ e ∈ (createPeer mgrDisc "B" false).2.2, e.isEmit = false) := by
  decide

/-- C5, counterexample.  `mgrRemoved` is the state right after
`removePeer("X")`.  The claim says any inbound message from "X" is then
a no-op; an inbound offer instead creates a fresh responder session and
sends an answer. -/
theorem C5_counterexample :
    plookup mgrRemoved.peers "X" = none ∧
    ¬ (plookup (handleOffer mgrRemoved "X" ⟨.offer, 9⟩).1.peers "X" = none ∧
       ∀ e ∈ (handleOffer mgrRemoved "X" ⟨.offer, 9⟩).2, e.isSend = false) := by
  decide

/-- C6, counterexample.  Listener 1 is registered when emission starts
and is still registered when it ends, yet it is never invoked: listener
0 removes itself during delivery, the array shifts, and `forEach` skips
listener 1 — refuting the claimed snapshot semantics. -/
theorem C6_counterexample :
    (⟨1, .noop⟩ : Listener) ∈ ([⟨0, .removeL 0⟩, ⟨1, .noop⟩] : List Listener) ∧
    (emitEvent [⟨0, .removeL 0⟩, ⟨1, .noop⟩]).1 = [⟨1, .noop⟩] ∧
    ¬ (1 ∈ (emitEvent [⟨0, .removeL 0⟩, ⟨1, .noop⟩]).2) := by
  decide

/-- C7, counterexample.  Two transitions into `disconnected` within the
2000 ms delay window each schedule their own timeout, so two restart
timers are outstanding at once — refuting "at most one restart timer is
outstanding per peer". -/
theorem C7_counterexample :
    ¬ ((supRun supInit doubleDropTrace).timers.length ≤ 1) := by
  decide

/-- C8, counterexample.  `cleanup` stops the tracks of the local media
stream but keeps the orchestrator's reference to it, so the claimed
"clears the local media references" fails. -/
theorem C8_counterexample :
    ¬ ((cleanup mgrMedia).1.localStream = none) := by
  decide

/-!
## Amended and confirmed claims
-/

lemma stopTracks_idem (s : Option (List Track)) :
    stopTracks (stopTracks s) = stopTracks s := by
  cases s <;> simp [stopTracks]

/-- C8, amended: `teardown` (`cleanup`) removes every peer session,
detaches all listeners and stops the tracks of the local and screen
streams — but it retains the stream references rather than clearing
them; it emits no events at all (in particular no duplicate
`peer-removed` events) and a second call is a no-op on the state. -/
theorem C8_cleanup_amended (m : Manager) :
    (cleanup m).1.peers = [] ∧
    (cleanup m).1.eventListeners = [] ∧
    (cleanup m).1.localStream = stopTracks m.localStream ∧
    (cleanup m).1.screenStream = stopTracks m.screenStream ∧
    (∀ e ∈ (cleanup m).2, Effect.benign e) ∧
    (cleanup (cleanup m).1).1 = (cleanup m).1 ∧
    (∀ e ∈ (cleanup (cleanup m).1).2, Effect.benign e) := by
  simp [cleanup, stopTracks_idem, Effect.benign, Effect.isSend, Effect.isEmit]

/-- C8, witness. -/
theorem C8_witness :
    (cleanup mgrMedia).1.peers = [] ∧
    (cleanup mgrMedia).1.localStream = stopTracks mgrMedia.localStream ∧
    Effect.benign (Effect.log "cleaning up") := by
  have h := C8_cleanup_amended mgrMedia
  exact ⟨h.1, h.2.2.1, h.2.2.2.2.1 (Effect.log "cleaning up") (by decide)⟩

/-- C10: the singleton accessor throws exactly when no instance exists
and an identifier is missing (or empty, which JavaScript treats as
missing); the first fully-parameterized call constructs the instance
with those identifiers; every later call returns the existing instance
unchanged — arguments are ignored and the stored identifiers are never
updated. -/
theorem C10_singleton :
    (∀ u r, falsy u = true ∨ falsy r = true →
       getInstance none u r = .error "UserId and RoomId required for first initialization") ∧
    (∀ u r, falsy u = false → falsy r = false →
       getInstance none u r =
         .ok ({ userId := u.getD "", roomId := r.getD "" },
              some { userId := u.getD "", roomId := r.getD "" })) ∧
    (∀ mgr u r, getInstance (some mgr) u r = .ok (mgr, some mgr)) := by
  refine ⟨fun u r h => ?_, fun u r hu hr => ?_, fun mgr u r => ?_⟩
  · simp [getInstance, h]
  · simp [getInstance, hu, hr]
  · simp [getInstance]

/-- C10, witness. -/
theorem C10_witness :
    getInstance none (some "u") none =
      .error "UserId and RoomId required for first initialization" ∧
    getInstance none (some "u") (some "r") =
      .ok ({ userId := "u", roomId := "r" }, some { userId := "u", roomId := "r" }) ∧
    getInstance (some initMgr) none (some "z") = .ok (initMgr, some initMgr) :=
  ⟨C10_singleton.1 (some "u") none (by decide),
   C10_singleton.2.1 (some "u") (some "r") (by decide) (by decide),
   C10_singleton.2.2 initMgr none (some "z")⟩

lemma supStep_restarts_connChange (s : SupState) (t : Nat) (cs : ConnState) :
    (supStep s (.connChange t cs)).restarts = s.restarts := by
  simp only [supStep]
  split_ifs <;> rfl

lemma supStep_fire_not_down (s : SupState) (t : Nat)
    (hA : ¬ (s.connState = .disconnected ∨ s.connState = .failed)) :
    (supStep s (.timerFire t)).restarts = s.restarts := by
  by_cases hc : t ∈ s.timers
  · simp [supStep, hc, hA]
  · simp [supStep, hc]

/-- C7, amended: a restart is issued only when a scheduled timer fires
while connectivity is still `Disconnected`/`Failed`, the peer still
exists and its negotiation state is `Stable`; in particular a
`Connected → Disconnected → Connected` sequence within the delay window
never issues a restart.  However, each transition into
`Disconnected`/`Failed` schedules an additional timer, so several
restart timers can be outstanding for one peer at once. -/
theorem C7_restart_amended :
    (∀ (s : SupState) (e : SupEvent), (supStep s e).restarts ≠ s.restarts →
       ∃ t, e = SupEvent.timerFire t ∧
         (s.connState = .disconnected ∨ s.connState = .failed) ∧
         s.present = true ∧ s.sig = .stable) ∧
    (∀ (s : SupState) (t1 t2 tf : Nat), s.timers = [] →
       (supRun s [.connChange t1 .disconnected, .connChange t2 .connected,
                  .timerFire tf]).restarts = s.restarts) := by
  constructor
  · intro s e h
    cases e with
    | connChange t cs => exact absurd (supStep_restarts_connChange s t cs) h
    | timerFire t =>
      by_cases hc : t ∈ s.timers
      · by_cases hA : s.connState = .disconnected ∨ s.connState = .failed
        · by_cases hB : s.present = true ∧ s.sig = .stable
          · exact ⟨t, rfl, hA, hB.1, hB.2⟩
          · exact absurd (by simp [supStep, hc, hA, hB]) h
        · exact absurd (supStep_fire_not_down s t hA) h
      · exact absurd (by simp [supStep, hc]) h
  · intro s t1 t2 tf h
    have e1 : supStep s (.connChange t1 .disconnected) =
        { s with now := t1, connState := .disconnected,
                 timers := s.timers ++ [t1 + restartDelay] } := by
      simp [supStep]
    have e2 : ∀ s' : SupState, supStep s' (.connChange t2 .connected) =
        { s' with now := t2, connState := .connected } := by
      intro s'
      simp [supStep]
    simp only [supRun, List.foldl, e1, e2]
    exact supStep_fire_not_down _ tf (by simp)

lemma emitFrom_noRemove :
    ∀ (n k : Nat) (orig extra : List Listener) (inv : List Nat),
      (∀ l ∈ orig, l.act.isRemove = false) → k + n = orig.length →
      (emitFrom n k (orig ++ extra) inv).2 = inv ++ (orig.drop k).map (fun l => l.lid) := by
  intro n
  induction n with
  | zero =>
    intro k orig extra inv _ hk
    have : k = orig.length := by omega
    simp [emitFrom, this, List.drop_length]
  | succ n ih =>
    intro k orig extra inv h hk
    have hklt : k < orig.length := by omega
    have hlt : k < (orig ++ extra).length := by
      simp only [List.length_append]
      omega
    have hget : (orig ++ extra).get ⟨k, hlt⟩ = orig.get ⟨k, hklt⟩ := by
      simp [List.getElem_append_left hklt]
    have hdrop : orig.drop k = orig.get ⟨k, hklt⟩ :: orig.drop (k + 1) :=
      (List.getElem_cons_drop orig k hklt).symm
    have hmem : orig.get ⟨k, hklt⟩ ∈ orig := List.get_mem orig k hklt
    have hnr := h _ hmem
    simp only [emitFrom, dif_pos hlt, hget]
    cases hact : (orig.get ⟨k, hklt⟩).act with
    | removeL t =>
      rw [hact] at hnr
      simp [LAction.isRemove] at hnr
    | noop =>
      simp only [applyAction]
      rw [ih (k + 1) orig extra (inv ++ [(orig.get ⟨k, hklt⟩).lid]) h (by omega)]
      simp
      have h2 : k < (List.map (fun l : Listener => l.lid) orig).length := by simpa using hklt
      have h3 := List.getElem_cons_drop (List.map (fun l : Listener => l.lid) orig) k h2
      rw [List.getElem_map] at h3
      exact h3
    | addL x =>
      simp only [applyAction, List.append_assoc]
      have hres := ih (k + 1) orig (extra ++ [(⟨x, .noop⟩ : Listener)])
        (inv ++ [(orig.get ⟨k, hklt⟩).lid]) h (by omega)
      rw [hres]
      simp
      have h2 : k < (List.map (fun l : Listener => l.lid) orig).length := by simpa using hklt
      have h3 := List.getElem_cons_drop (List.map (fun l : Listener => l.lid) orig) k h2
      rw [List.getElem_map] at h3
      exact h3

/-- C6, amended: delivery iterates the live listener list with the index
range fixed at emission time, so as long as no listener removes one
during delivery, every listener registered at emission time is invoked
exactly once, in registration order, and a listener added during
delivery is not invoked for the current event.  (A removal during
delivery, by contrast, shifts the array and can skip a listener — see
the counterexample.) -/
theorem C6_emit_amended (ls : List Listener)
    (h : ∀ l ∈ ls, l.act.isRemove = false) :
    (emitEvent ls).2 = ls.map fun l => l.lid := by
  have := emitFrom_noRemove ls.length 0 ls [] [] h (by omega)
  rw [List.append_nil] at this
  simpa [emitEvent] using this

/-- C6, witness: a listener that adds a new listener during delivery —
both original listeners are invoked, in order, and the added listener is
not invoked for this event. -/
theorem C6_witness :
    (emitEvent [⟨0, .addL 7⟩, ⟨1, .noop⟩]).2 = [0, 1] :=
  C6_emit_amended [⟨0, .addL 7⟩, ⟨1, .noop⟩] (by decide)

lemma flush_foldl_effs (cs : List (Option IceCand)) (conn : RTCConn) (effs : List Effect) :
    (cs.foldl flushStep (conn, effs)).2 =
      effs ++ ((cs.filterMap id).filter fun c => !c.ok).map
        (fun _ => Effect.log "error adding pending ICE candidate") := by
  induction cs generalizing conn effs with
  | nil => simp
  | cons c t ih =>
    cases c with
    | none => simp [flushStep, ih]
    | some cand =>
      by_cases hok : cand.ok
      · simp [flushStep, RTCConn.addIceCandidate, hok, ih]
      · simp [flushStep, RTCConn.addIceCandidate, hok, ih]

lemma flushPendingIce_effs (peer : PeerConnection) :
    (flushPendingIce peer).2 =
      if peer.pendingCandidates.length = 0 then []
      else Effect.log "flushing pending ICE" ::
        ((peer.pendingCandidates.filterMap id).filter fun c => !c.ok).map
          (fun _ => Effect.log "error adding pending ICE candidate") := by
  by_cases h : peer.pendingCandidates.length = 0
  · simp [flushPendingIce, h]
  · simp [flushPendingIce, h, flush_foldl_effs]

/-- Successful answer application: with the peer in `have-local-offer`,
the handler sets the remote description and drains the candidate
buffer. -/
lemma handleAnswer_applied (m : Manager) (p : String) (peer : PeerConnection) (ans : Desc)
    (hm : plookup m.peers p = some peer) (hans : ans.typ = .answer)
    (hsig : peer.connection.signalingState = .haveLocalOffer) :
    plookup (handleAnswer m p ans).1.peers p = some
      { peer with
          connection := { peer.connection with
            signalingState := .stable, remoteDesc := some ans,
            attempted := peer.connection.attempted ++
              ((peer.pendingCandidates.filterMap id).map fun c => c.cid),
            applied := peer.connection.applied ++
              (((peer.pendingCandidates.filterMap id).filter fun c => c.ok).map
                fun c => c.cid) },
          pendingCandidates := [] } := by
  have hsr : peer.connection.setRemoteDescription ans =
      .ok { peer.connection with signalingState := .stable, remoteDesc := some ans } := by
    simp [RTCConn.setRemoteDescription, hans, hsig]
  simp [handleAnswer, hm, hsr, flushPendingIce_fst, plookup_pupsert_self]

/-- Effects of a successful answer application. -/
lemma handleAnswer_applied_effs (m : Manager) (p : String) (peer : PeerConnection)
    (ans : Desc) (hm : plookup m.peers p = some peer) (hans : ans.typ = .answer)
    (hsig : peer.connection.signalingState = .haveLocalOffer) :
    (handleAnswer m p ans).2 =
      [.log "received answer"] ++
        (flushPendingIce { peer with connection := { peer.connection with
            signalingState := .stable, remoteDesc := some ans } }).2 ++
        [.log "answer processed"] := by
  have hsr : peer.connection.setRemoteDescription ans =
      .ok { peer.connection with signalingState := .stable, remoteDesc := some ans } := by
    simp [RTCConn.setRemoteDescription, hans, hsig]
  simp [handleAnswer, hm, hsr]

/-- Rejected answer: in any state other than `have-local-offer` the
capability rejects the answer and the handler leaves the manager
untouched. -/
lemma handleAnswer_rejected (m : Manager) (p : String) (peer : PeerConnection) (ans : Desc)
    (hm : plookup m.peers p = some peer) (hans : ans.typ = .answer)
    (hsig : peer.connection.signalingState ≠ .haveLocalOffer) :
    handleAnswer m p ans =
      (m, [.log "received answer", .log "InvalidStateError: setRemoteDescription",
           .log "error handling answer"]) := by
  have hsr : peer.connection.setRemoteDescription ans =
      .error "InvalidStateError: setRemoteDescription" := by
    cases hs : peer.connection.signalingState with
    | haveLocalOffer => exact absurd hs hsig
    | stable => simp [RTCConn.setRemoteDescription, hans, hs]
    | haveRemoteOffer => simp [RTCConn.setRemoteDescription, hans, hs]
    | closed => simp [RTCConn.setRemoteDescription, hans, hs]
  simp [handleAnswer, hm, hsr]

/-- C2, amended: the answer handler unconditionally hands the answer to
the capability, which accepts it exactly in `HaveLocalOffer` (setting the
remote description and flushing the buffer); in every other state —
including when no remote description exists — the attempt is rejected,
the failure is logged, and the manager state is unchanged.  There is no
defensive-apply branch. -/
theorem C2_answer_amended (m : Manager) (p : String) (peer : PeerConnection) (ans : Desc)
    (hm : plookup m.peers p = some peer) (hans : ans.typ = .answer) :
    (peer.connection.signalingState = .haveLocalOffer →
       plookup (handleAnswer m p ans).1.peers p = some
         { peer with
             connection := { peer.connection with
               signalingState := .stable, remoteDesc := some ans,
               attempted := peer.connection.attempted ++
                 ((peer.pendingCandidates.filterMap id).map fun c => c.cid),
               applied := peer.connection.applied ++
                 (((peer.pendingCandidates.filterMap id).filter fun c => c.ok).map
                   fun c => c.cid) },
             pendingCandidates := [] }) ∧
    (peer.connection.signalingState ≠ .haveLocalOffer →
       (handleAnswer m p ans).1 = m ∧
       (∀ e ∈ (handleAnswer m p ans).2, Effect.benign e) ∧
       Effect.log "error handling answer" ∈ (handleAnswer m p ans).2) := by
  constructor
  · intro hsig
    exact handleAnswer_applied m p peer ans hm hans hsig
  · intro hsig
    rw [handleAnswer_rejected m p peer ans hm hans hsig]
    refine ⟨rfl, ?_, by simp⟩
    intro e he
    simp only [List.mem_cons, List.mem_singleton] at he
    rcases he with rfl | rfl | rfl | h
    · exact ⟨rfl, rfl⟩
    · exact ⟨rfl, rfl⟩
    · exact ⟨rfl, rfl⟩
    · simp at h

/-- C2, witness: an answer in `HaveLocalOffer` is applied; an answer to a
fresh `stable` peer with no remote description is rejected and the state
is unchanged. -/
theorem C2_witness :
    ((plookup (handleAnswer mgrInit "B" ⟨.answer, 0⟩).1.peers "B").map
        fun q => q.connection.remoteDesc) = some (some ⟨.answer, 0⟩) ∧
    (handleAnswer mgrResp "B" ⟨.answer, 5⟩).1 = mgrResp := by
  constructor
  · have h := (C2_answer_amended mgrInit "B"
      { peerId := "B",
        connection := { signalingState := .haveLocalOffer, localDesc := some ⟨.offer, 0⟩ },
        dataChannel := some 0 } ⟨.answer, 0⟩ (by decide) rfl).1 (by decide)
    rw [h]
    rfl
  · exact ((C2_answer_amended mgrResp "B"
      { peerId := "B", connection := {} } ⟨.answer, 5⟩ (by decide) rfl).2 (by decide)).1

/-- Candidates delivered while no remote description exists are appended
to the peer's buffer, in arrival order, without touching the
connection. -/
lemma deliver_buffers (p : String) :
    ∀ (cs : List (Option IceCand)) (m : Manager) (peer : PeerConnection),
      plookup m.peers p = some peer → peer.connection.remoteDesc = none →
      plookup (deliverCandidates m p cs).peers p =
        some { peer with pendingCandidates := peer.pendingCandidates ++ cs } := by
  intro cs
  induction cs with
  | nil =>
    intro m peer hm _
    simpa [deliverCandidates] using hm
  | cons c cs ih =>
    intro m peer hm hrd
    have hstep : (handleCandidate m p c).1 =
        { m with peers := pupsert m.peers p { peer with pendingCandidates := peer.pendingCandidates ++ [c] } } := by
      simp [handleCandidate, hm, hrd]
    have hcons : deliverCandidates m p (c :: cs) =
        deliverCandidates (handleCandidate m p c).1 p cs := by
      simp [deliverCandidates]
    rw [hcons, hstep]
    have hl : plookup (pupsert m.peers p { peer with pendingCandidates := peer.pendingCandidates ++ [c] }) p =
        some { peer with pendingCandidates := peer.pendingCandidates ++ [c] } :=
      plookup_pupsert_self m.peers p _
    have := ih { m with peers := pupsert m.peers p { peer with pendingCandidates := peer.pendingCandidates ++ [c] } }
      { peer with pendingCandidates := peer.pendingCandidates ++ [c] } hl (by simpa using hrd)
    simpa using this

/-- C3: candidates arriving before a remote description are buffered in
arrival order; when the remote description is then set (here by an
answer in `HaveLocalOffer`) the buffer is flushed: every non-null
candidate is handed to the capability exactly once, in FIFO order, a
per-candidate failure is logged without stopping the flush, null
sentinels are recorded but never applied, and the buffer is empty
afterwards (an empty flush being a no-op). -/
theorem C3_candidate_buffer (m : Manager) (p : String) (peer : PeerConnection)
    (cs : List (Option IceCand)) (ans : Desc)
    (hm : plookup m.peers p = some peer)
    (hrd : peer.connection.remoteDesc = none)
    (hsig : peer.connection.signalingState = .haveLocalOffer)
    (hans : ans.typ = .answer) :
    plookup (deliverCandidates m p cs).peers p =
      some { peer with pendingCandidates := peer.pendingCandidates ++ cs } ∧
    plookup (handleAnswer (deliverCandidates m p cs) p ans).1.peers p = some
      { peer with
          connection := { peer.connection with
            signalingState := .stable, remoteDesc := some ans,
            attempted := peer.connection.attempted ++
              (((peer.pendingCandidates ++ cs).filterMap id).map fun c => c.cid),
            applied := peer.connection.applied ++
              ((((peer.pendingCandidates ++ cs).filterMap id).filter fun c => c.ok).map
                fun c => c.cid) },
          pendingCandidates := [] } ∧
    (Effect.log "error adding pending ICE candidate" ∈
        (handleAnswer (deliverCandidates m p cs) p ans).2 ↔
      ∃ ic ∈ (peer.pendingCandidates ++ cs).filterMap id, ic.ok = false) := by
  have hb := deliver_buffers p cs m peer hm hrd
  refine ⟨hb, ?_, ?_⟩
  · have h := handleAnswer_applied (deliverCandidates m p cs) p
      { peer with pendingCandidates := peer.pendingCandidates ++ cs } ans hb hans
      (by simpa using hsig)
    simpa using h
  · have h := handleAnswer_applied_effs (deliverCandidates m p cs) p
      { peer with pendingCandidates := peer.pendingCandidates ++ cs } ans hb hans
      (by simpa using hsig)
    rw [h, flushPendingIce_effs]
    by_cases hlen : ({ peer with pendingCandidates := peer.pendingCandidates ++ cs } :
        PeerConnection).pendingCandidates.length = 0
    · have hnil : peer.pendingCandidates ++ cs = [] := by simpa using hlen
      simp [hlen, hnil]
    · simp only [if_neg hlen]
      constructor
      · intro hmem
        simp only [List.mem_append, List.mem_cons, List.mem_singleton, List.mem_map,
          List.mem_filter] at hmem
        rcases hmem with (h1 | h1 | ⟨ic, hic, _⟩) | h1
        · exact absurd h1 (by simp)
        · exact absurd h1 (by simp)
        · exact ⟨ic, by simpa using hic.1, by simpa using hic.2⟩
        · exact absurd h1 (by simp)
      · rintro ⟨ic, hic, hok⟩
        have hmemf : ic ∈ (({ peer with
            pendingCandidates := peer.pendingCandidates ++ cs } :
              PeerConnection).pendingCandidates.filterMap id).filter fun c => !c.ok :=
          List.mem_filter.mpr ⟨by simpa using hic, by simp [hok]⟩
        have hmm : Effect.log "error adding pending ICE candidate" ∈
            ((({ peer with pendingCandidates := peer.pendingCandidates ++ cs } :
                PeerConnection).pendingCandidates.filterMap id).filter fun c => !c.ok).map
              (fun _ => Effect.log "error adding pending ICE candidate") :=
          List.mem_map.mpr ⟨ic, hmemf, rfl⟩
        exact List.mem_append.mpr (Or.inl (List.mem_append.mpr
          (Or.inr (List.mem_cons_of_mem _ hmm))))

/-- C3, witness: two good candidates, a null sentinel and one rejected
candidate are buffered and flushed in order. -/
theorem C3_witness :
    plookup (deliverCandidates mgrInit "B"
        [some ⟨1, true⟩, none, some ⟨2, false⟩, some ⟨3, true⟩]).peers "B" =
      some { peerId := "B",
             connection := { signalingState := .haveLocalOffer, localDesc := some ⟨.offer, 0⟩ },
             dataChannel := some 0,
             pendingCandidates := [some ⟨1, true⟩, none, some ⟨2, false⟩, some ⟨3, true⟩] } ∧
    ((plookup (handleAnswer (deliverCandidates mgrInit "B"
          [some ⟨1, true⟩, none, some ⟨2, false⟩, some ⟨3, true⟩]) "B" ⟨.answer, 0⟩).1.peers
        "B").map fun q => (q.connection.attempted, q.connection.applied,
          q.pendingCandidates)) = some ([1, 2, 3], [1, 3], []) ∧
    Effect.log "error adding pending ICE candidate" ∈
      (handleAnswer (deliverCandidates mgrInit "B"
          [some ⟨1, true⟩, none, some ⟨2, false⟩, some ⟨3, true⟩]) "B" ⟨.answer, 0⟩).2 := by
  have h := C3_candidate_buffer mgrInit "B"
    { peerId := "B",
      connection := { signalingState := .haveLocalOffer, localDesc := some ⟨.offer, 0⟩ },
      dataChannel := some 0 }
    [some ⟨1, true⟩, none, some ⟨2, false⟩, some ⟨3, true⟩] ⟨.answer, 0⟩
    (by decide) rfl rfl rfl
  refine ⟨by rw [h.1]; rfl, ?_, h.2.2.mpr ⟨⟨2, false⟩, by decide, rfl⟩⟩
  rw [h.2.1]
  rfl

lemma pupsert_pupsert (l : List (String × PeerConnection)) (k : String)
    (v w : PeerConnection) : pupsert (pupsert l k v) k w = pupsert l k w := by
  induction l with
  | nil => simp [pupsert]
  | cons hd t ih =>
    obtain ⟨a, b⟩ := hd
    by_cases hk : a = k
    · simp [pupsert, hk]
    · simp [pupsert, hk, ih]

lemma createFresh_peers (m : Manager) (p : String) (i : Bool) :
    (createFresh m p i).1.peers = pupsert m.peers p (createFresh m p i).2.1 := by
  cases i with
  | false => simp [createFresh]
  | true =>
    cases hs : m.socketId with
    | none => simp [createFresh, RTCConn.setLocalDescription, hs, pupsert_pupsert]
    | some sid => simp [createFresh, RTCConn.setLocalDescription, hs, pupsert_pupsert]

lemma createFresh_conn (m : Manager) (p : String) (i : Bool) :
    (createFresh m p i).2.1.connection.connectionState = .fresh ∧
    (createFresh m p i).2.1.connection.remoteDesc = none := by
  cases i with
  | false => simp [createFresh]
  | true =>
    cases hs : m.socketId with
    | none => simp [createFresh, RTCConn.setLocalDescription, hs]
    | some sid => simp [createFresh, RTCConn.setLocalDescription, hs]

lemma keysNodup_createFresh (m : Manager) (p : String) (i : Bool)
    (h : keysNodup m.peers) : keysNodup (createFresh m p i).1.peers := by
  rw [createFresh_peers]
  exact keysNodup_pupsert _ _ _ h

/-- C4, amended: the peers map keeps at most one session per `peerId`
(`createPeer` preserves key uniqueness); an existing healthy
(`stable`+`connected`) session is returned unchanged; a session is torn
down and replaced by a fresh one when its signaling state is `closed`
*or its connectivity is `failed` or `disconnected`* (not only "Closed
connectivity or failed negotiation" as claimed); any other existing
session is returned unchanged. -/
theorem C4_createPeer_amended (m : Manager) (p : String) (init : Bool)
    (hnd : keysNodup m.peers) :
    keysNodup (createPeer m p init).1.peers ∧
    ∀ peer, plookup m.peers p = some peer →
      ((healthyPeer peer →
          createPeer m p init = (m, peer, [.log "reusing existing stable connection"])) ∧
       (stalePeer peer →
          Effect.emitEv (.peerRemoved p) ∈ (createPeer m p init).2.2 ∧
          plookup (createPeer m p init).1.peers p = some (createPeer m p init).2.1 ∧
          (createPeer m p init).2.1.connection.connectionState = .fresh) ∧
       (¬ healthyPeer peer → ¬ stalePeer peer →
          createPeer m p init = (m, peer, [.log "peer exists but not ready"]))) := by
  constructor
  · cases hp : plookup m.peers p with
    | none =>
      simp only [createPeer, hp]
      exact keysNodup_createFresh m p init hnd
    | some ex =>
      by_cases h1 : ex.connection.signalingState = .stable ∧
          ex.connection.connectionState = .connected
      · simpa [createPeer, hp, h1] using hnd
      · by_cases h2 : ex.connection.signalingState = .closed ∨
            ex.connection.connectionState = .failed ∨
            ex.connection.connectionState = .disconnected
        · simp only [createPeer, hp, if_neg h1, if_pos h2, removePeer, hp]
          exact keysNodup_createFresh _ p init (keysNodup_perase _ _ hnd)
        · simpa [createPeer, hp, h1, h2] using hnd
  · intro peer hpe
    refine ⟨?_, ?_, ?_⟩
    · rintro ⟨h1, h2⟩
      simp [createPeer, hpe, h1, h2]
    · intro hs
      have hcond : peer.connection.signalingState = .closed ∨
          peer.connection.connectionState = .failed ∨
          peer.connection.connectionState = .disconnected := hs
      have hnh : ¬ (peer.connection.signalingState = .stable ∧
          peer.connection.connectionState = .connected) := by
        rcases hcond with h | h | h <;> simp [h]
      simp only [createPeer, hpe, if_neg hnh, if_pos hcond, removePeer]
      refine ⟨by simp, ?_, (createFresh_conn _ p init).1⟩
      rw [createFresh_peers]
      exact plookup_pupsert_self _ p _
    · intro hnh hns
      have hnh' : ¬ (peer.connection.signalingState = .stable ∧
          peer.connection.connectionState = .connected) := hnh
      have hns' : ¬ (peer.connection.signalingState = .closed ∨
          peer.connection.connectionState = .failed ∨
          peer.connection.connectionState = .disconnected) := hns
      simp [createPeer, hpe, hnh', hns']

/-- C4, witness: the `stable`+`disconnected` session of `mgrDisc` is
torn down and replaced by a fresh one. -/
theorem C4_witness :
    Effect.emitEv (.peerRemoved "B") ∈ (createPeer mgrDisc "B" false).2.2 ∧
    (createPeer mgrDisc "B" false).2.1.connection.connectionState = .fresh := by
  have h := ((C4_createPeer_amended mgrDisc "B" false
    (by unfold keysNodup; decide)).2 discPeer
    (by decide)).2.1 (by unfold stalePeer; decide)
  exact ⟨h.1, h.2.2⟩

/-- C1, amended: when a remote offer arrives for a peer whose state is
`HaveLocalOffer`, the handler *always* rolls the local offer back and
accepts the incoming offer — no role is stored and none is consulted —
then answers it.  Under concurrent offers both sides therefore roll
back and each side answers the other's offer; the incoming offer never
survives unanswered as the claimed Initiator behaviour requires. -/
theorem C1_glare_rollback (m : Manager) (p : String) (peer : PeerConnection) (offer : Desc)
    (sid : String)
    (hm : plookup m.peers p = some peer)
    (hsig : peer.connection.signalingState = .haveLocalOffer)
    (hoff : offer.typ = .offer)
    (hsock : m.socketId = some sid) :
    plookup (handleOffer m p offer).1.peers p = some
      { peer with
          connection := { peer.connection with
            signalingState := .stable,
            localDesc := some ⟨.answer, offer.sdp⟩,
            remoteDesc := some offer,
            attempted := peer.connection.attempted ++
              ((peer.pendingCandidates.filterMap id).map fun c => c.cid),
            applied := peer.connection.applied ++
              (((peer.pendingCandidates.filterMap id).filter fun c => c.ok).map
                fun c => c.cid) },
          pendingCandidates := [] } ∧
    Effect.sendAnswer p ⟨.answer, offer.sdp⟩ ∈ (handleOffer m p offer).2 := by
  constructor
  · simp [handleOffer, hm, hsig, hoff, hsock, RTCConn.setLocalDescription,
      RTCConn.setRemoteDescription, RTCConn.createAnswer, flushPendingIce_fst,
      plookup_pupsert_self]
  · simp [handleOffer, hm, hsig, hoff, hsock, RTCConn.setLocalDescription,
      RTCConn.setRemoteDescription, RTCConn.createAnswer, flushPendingIce_fst]

/-- C1, witness: the peer of `mgrInit` was created as Initiator and has
its local offer outstanding; the incoming offer is nevertheless
accepted and answered. -/
theorem C1_witness :
    ((plookup (handleOffer mgrInit "B" ⟨.offer, 100⟩).1.peers "B").map
        fun q => (q.connection.signalingState, q.connection.remoteDesc,
          q.connection.localDesc)) =
      some (.stable, some ⟨.offer, 100⟩, some ⟨.answer, 100⟩) ∧
    Effect.sendAnswer "B" ⟨.answer, 100⟩ ∈ (handleOffer mgrInit "B" ⟨.offer, 100⟩).2 := by
  have h := C1_glare_rollback mgrInit "B"
    { peerId := "B",
      connection := { signalingState := .haveLocalOffer, localDesc := some ⟨.offer, 0⟩ },
      dataChannel := some 0 } ⟨.offer, 100⟩ "sock" (by decide) rfl rfl rfl
  exact ⟨by rw [h.1]; rfl, h.2⟩

/-- C5, amended: after `removePeer(p)` an inbound answer or candidate
from `p` is indeed a no-op (state unchanged, nothing but logging), but an
inbound *offer* from `p` is not: it creates a fresh responder session
and sends an answer. -/
theorem C5_removed_amended (m : Manager) (p : String) (ans : Desc) (c : Option IceCand)
    (offer : Desc) (sid : String)
    (hm : plookup m.peers p = none)
    (hoff : offer.typ = .offer)
    (hsock : m.socketId = some sid) :
    ((handleAnswer m p ans).1 = m ∧ ∀ e ∈ (handleAnswer m p ans).2, Effect.benign e) ∧
    ((handleCandidate m p c).1 = m ∧ ∀ e ∈ (handleCandidate m p c).2, Effect.benign e) ∧
    ((plookup (handleOffer m p offer).1.peers p).isSome = true ∧
      Effect.sendAnswer p ⟨.answer, offer.sdp⟩ ∈ (handleOffer m p offer).2) := by
  refine ⟨⟨?_, ?_⟩, ⟨?_, ?_⟩, ?_, ?_⟩
  · simp [handleAnswer, hm]
  · simp [handleAnswer, hm, Effect.benign, Effect.isSend, Effect.isEmit]
  · simp [handleCandidate, hm]
  · simp [handleCandidate, hm, Effect.benign, Effect.isSend, Effect.isEmit]
  · simp [handleOffer, hm, createPeer, createFresh, hoff, hsock,
      RTCConn.setRemoteDescription, RTCConn.createAnswer, RTCConn.setLocalDescription,
      flushPendingIce, plookup_pupsert_self]
  · simp [handleOffer, hm, createPeer, createFresh, hoff, hsock,
      RTCConn.setRemoteDescription, RTCConn.createAnswer, RTCConn.setLocalDescription,
      flushPendingIce, plookup_pupsert_self]

/-- C5, witness. -/
theorem C5_witness :
    (handleAnswer mgrRemoved "X" ⟨.answer, 1⟩).1 = mgrRemoved ∧
    (handleCandidate mgrRemoved "X" (some ⟨1, true⟩)).1 = mgrRemoved ∧
    (plookup (handleOffer mgrRemoved "X" ⟨.offer, 9⟩).1.peers "X").isSome = true := by
  have h := C5_removed_amended mgrRemoved "X" ⟨.answer, 1⟩ (some ⟨1, true⟩) ⟨.offer, 9⟩
    "sock" (by decide) rfl (by decide)
  exact ⟨h.1.1, h.2.1.1, h.2.2.1⟩

lemma countKind_cons (s : Sender) (ss : List Sender) (k : MKind) :
    countKind (s :: ss) k = countKind ss k + (if s.kind = k then 1 else 0) := by
  by_cases h : s.kind = k
  · simp [countKind, List.filter_cons, h]
  · simp [countKind, List.filter_cons, h]

lemma applyTrack_count_self (ss : List Sender) (t : Track) :
    countKind (applyTrack ss t) t.kind = max (countKind ss t.kind) 1 := by
  induction ss with
  | nil => simp [applyTrack, countKind]
  | cons s ss ih =>
    by_cases h : s.kind = t.kind
    · simp [applyTrack, h, countKind_cons]
      try omega
    · simp [applyTrack, h, countKind_cons, ih]

lemma applyTrack_count_other (ss : List Sender) (t : Track) (k : MKind)
    (h : k ≠ t.kind) : countKind (applyTrack ss t) k = countKind ss k := by
  induction ss with
  | nil => simp [applyTrack, countKind, Ne.symm h]
  | cons s ss ih =>
    by_cases hs : s.kind = t.kind
    · simp [applyTrack, hs, countKind_cons]
    · simp [applyTrack, hs, countKind_cons, ih]

lemma foldl_applyTrack_le (ts : List Track) :
    ∀ (ss : List Sender) (k : MKind), countKind ss k ≤ 1 →
      countKind (ts.foldl applyTrack ss) k ≤ 1 := by
  induction ts with
  | nil => intro ss k h; simpa using h
  | cons t ts ih =>
    intro ss k h
    simp only [List.foldl_cons]
    apply ih
    by_cases hk : k = t.kind
    · subst hk
      rw [applyTrack_count_self]
      omega
    · rw [applyTrack_count_other ss t k hk]
      exact h

lemma applyTrack_absent (ss : List Sender) (t : Track)
    (h : countKind ss t.kind = 0) : applyTrack ss t = ss ++ [⟨t.kind, t.tid⟩] := by
  induction ss with
  | nil => simp [applyTrack]
  | cons s ss ih =>
    rw [countKind_cons] at h
    by_cases hs : s.kind = t.kind
    · simp [hs] at h
    · simp only [if_neg hs, Nat.add_zero] at h
      simp [applyTrack, hs, ih h]

lemma applyTrack_present (ss : List Sender) (t : Track)
    (h : 1 ≤ countKind ss t.kind) :
    (applyTrack ss t).length = ss.length ∧
    countKind (applyTrack ss t) t.kind = countKind ss t.kind := by
  constructor
  · induction ss with
    | nil => simp [countKind] at h
    | cons s ss ih =>
      by_cases hs : s.kind = t.kind
      · simp [applyTrack, hs]
      · rw [countKind_cons, if_neg hs, Nat.add_zero] at h
        simp [applyTrack, hs, ih h]
  · rw [applyTrack_count_self]
    omega

/-- C9: `setLocalStream` replaces the outbound sender of the same kind
when one exists (same sender count, no growth) and appends a new sender
when none exists; consequently, for peers with at most one sender per
kind, two successive `setLocalStream` sweeps never produce two
simultaneous outbound senders of the same kind. -/
theorem C9_track_idempotent (m : Manager) (t1 t2 : List Track)
    (h : ∀ kv ∈ m.peers, ∀ k, countKind kv.2.connection.senders k ≤ 1) :
    (∀ kv ∈ (setLocalStream (setLocalStream m t1) t2).peers, ∀ k,
        countKind kv.2.connection.senders k ≤ 1) ∧
    (∀ (ss : List Sender) (t : Track), countKind ss t.kind = 0 →
        applyTrack ss t = ss ++ [⟨t.kind, t.tid⟩]) ∧
    (∀ (ss : List Sender) (t : Track), 1 ≤ countKind ss t.kind →
        (applyTrack ss t).length = ss.length ∧
        countKind (applyTrack ss t) t.kind = countKind ss t.kind) := by
  refine ⟨?_, applyTrack_absent, applyTrack_present⟩
  intro kv hkv k
  simp only [setLocalStream, List.mem_map] at hkv
  obtain ⟨kv1, hkv1, rfl⟩ := hkv
  obtain ⟨kv0, hkv0, rfl⟩ := hkv1
  exact foldl_applyTrack_le t2 _ k (foldl_applyTrack_le t1 _ k (h kv0 hkv0 k))

/-- C9, witness. -/
theorem C9_witness :
    countKind [(⟨.video, 3⟩ : Sender)] .video ≤ 1 ∧
    applyTrack ([⟨.audio, 5⟩] : List Sender) ⟨.video, 7, false⟩ =
      [⟨.audio, 5⟩, ⟨.video, 7⟩] ∧
    (applyTrack ([⟨.video, 1⟩] : List Sender) ⟨.video, 7, false⟩).length = 1 := by
  have hmain := C9_track_idempotent mgrSenders [⟨.video, 2, false⟩] [⟨.video, 3, false⟩]
    (by
      intro kv hkv k
      simp [mgrSenders] at hkv
      subst hkv
      cases k <;> decide)
  have hmem : (("B",
      ({ peerId := "B", connection := { senders := [(⟨.video, 3⟩ : Sender)] } } :
        PeerConnection)) ∈
      (setLocalStream (setLocalStream mgrSenders [⟨.video, 2, false⟩])
        [⟨.video, 3, false⟩]).peers) := by
    decide
  exact ⟨by simpa using hmain.1 _ hmem .video,
    hmain.2.1 [⟨.audio, 5⟩] ⟨.video, 7, false⟩ (by decide),
    (hmain.2.2 [⟨.video, 1⟩] ⟨.video, 7, false⟩ (by decide)).1⟩

/-- C7, witness. -/
theorem C7_witness :
    (∃ t, SupEvent.timerFire 2000 = SupEvent.timerFire t ∧
       ((supRun supInit [.connChange 0 .disconnected]).connState = .disconnected ∨
        (supRun supInit [.connChange 0 .disconnected]).connState = .failed) ∧
       (supRun supInit [.connChange 0 .disconnected]).present = true ∧
       (supRun supInit [.connChange 0 .disconnected]).sig = .stable) ∧
    (supRun supInit [.connChange 0 .disconnected, .connChange 500 .connected,
                     .timerFire 2000]).restarts = supInit.restarts := by
  constructor
  · exact C7_restart_amended.1 (supRun supInit [.connChange 0 .disconnected])
      (.timerFire 2000) (by decide)
  · exact C7_restart_amended.2 supInit 0 500 2000 (by decide)

end VC
